import Mathlib

/-!
Verification of the OSTrails proxy service (src/main.py).

The development shallowly embeds the pure core of the service:

* JSON-like structured values (`JsonVal`) mirroring the dict/list/scalar
  payloads handled by the service, together with Python truthiness and the
  membership test `v in (None, "", [], {})` used by the sanitizer;
* the payload sanitizer `remove_empty`;
* the RDF identity extractor `extract_record_info` (source name
  `_extract_record_info`), including a model of CPython's
  `urllib.parse.urlparse(...).path` on the relevant URL shapes;
* the GitHub commit flow `commit_rdf_to_github`, with the network modelled
  as explicit preflight/put outcomes and an explicit event trace;
* the FAIRsharing resolver `fetch_internal_id`, the batch resolution
  `resolve_subject_domain_ids`, and the submission flow `submit_record`,
  again with oracle outcomes for the network and an event trace.

Network interactions are modelled by passing in the outcome each HTTP call
would produce (an oracle), and recording which calls the code performs in an
event list, so that claims of the form "endpoint X is never called" become
statements about the produced trace.
-/

namespace ProxyService

/-! ## JSON-like structured values -/

/-- Structured values as produced by `model_dump(mode="json")` and handled by
the service: null, booleans, numbers, strings, sequences and string-keyed
mappings. Mappings are association lists with distinct keys, in insertion
order, matching CPython dict semantics for the operations the code uses. -/
inductive JsonVal where
  | null
  | boolean (b : Bool)
  | num (n : Int)
  | str (s : String)
  | arr (xs : List JsonVal)
  | obj (kvs : List (String × JsonVal))

mutual

/-- Structural equality of values, mirroring Python `==` on JSON-shaped data
(dict comparison is order-insensitive in Python, but the code only ever
compares against `{}` and `[]`, where the two notions agree). -/
def beqVal : JsonVal → JsonVal → Bool
  | .null, .null => true
  | .boolean a, .boolean b => a == b
  | .num a, .num b => a == b
  | .str a, .str b => a == b
  | .arr xs, .arr ys => beqList xs ys
  | .obj a, .obj b => beqObj a b
  | _, _ => false

def beqList : List JsonVal → List JsonVal → Bool
  | [], [] => true
  | x :: xs, y :: ys => beqVal x y && beqList xs ys
  | _, _ => false

def beqObj : List (String × JsonVal) → List (String × JsonVal) → Bool
  | [], [] => true
  | (k1, v1) :: xs, (k2, v2) :: ys => k1 == k2 && beqVal v1 v2 && beqObj xs ys
  | _, _ => false

end

/-- Member-wise induction principle for `JsonVal` (the nested-inductive
recursor restated with list membership hypotheses). -/
theorem JsonVal.myInduct (P : JsonVal → Prop)
    (hnull : P .null) (hbool : ∀ b, P (.boolean b)) (hnum : ∀ n, P (.num n))
    (hstr : ∀ s, P (.str s))
    (harr : ∀ xs, (∀ v ∈ xs, P v) → P (.arr xs))
    (hobj : ∀ kvs, (∀ kv ∈ kvs, P kv.2) → P (.obj kvs)) :
    ∀ v, P v
  | .null => hnull
  | .boolean b => hbool b
  | .num n => hnum n
  | .str s => hstr s
  | .arr xs => harr xs (fun w _hw => JsonVal.myInduct P hnull hbool hnum hstr harr hobj w)
  | .obj kvs => hobj kvs (fun kv _hkv => JsonVal.myInduct P hnull hbool hnum hstr harr hobj kv.2)
termination_by v => sizeOf v
decreasing_by
  · have := List.sizeOf_lt_of_mem _hw
    simp only [JsonVal.arr.sizeOf_spec]
    omega
  · have h1 := List.sizeOf_lt_of_mem _hkv
    have h2 : sizeOf kv.2 < sizeOf kv := by
      obtain ⟨a, b⟩ := kv
      simp only [Prod.mk.sizeOf_spec]
      omega
    simp only [JsonVal.obj.sizeOf_spec]
    omega

theorem beqVal_iff : ∀ a b : JsonVal, beqVal a b = true ↔ a = b := by
  intro a
  induction a using JsonVal.myInduct with
  | hnull => intro b; cases b <;> simp [beqVal]
  | hbool x => intro b; cases b <;> simp [beqVal]
  | hnum x => intro b; cases b <;> simp [beqVal]
  | hstr x => intro b; cases b <;> simp [beqVal]
  | harr xs ih =>
    intro b
    cases b <;> simp [beqVal]
    case arr ys =>
      induction xs generalizing ys with
      | nil => cases ys <;> simp [beqList]
      | cons x xs ihl =>
        cases ys with
        | nil => simp [beqList]
        | cons y ys =>
          simp [beqList, ih x (by simp), ihl (fun v hv => ih v (by simp [hv])) ys]
  | hobj kvs ih =>
    intro b
    cases b <;> simp [beqVal]
    case obj ms =>
      induction kvs generalizing ms with
      | nil => cases ms <;> simp [beqObj]
      | cons kv kvs ihl =>
        cases ms with
        | nil => obtain ⟨k, v⟩ := kv; simp [beqObj]
        | cons m ms =>
          obtain ⟨k, v⟩ := kv
          obtain ⟨k2, v2⟩ := m
          simp [beqObj, ih ⟨k, v⟩ (by simp), ihl (fun kv hkv => ih kv (by simp [hkv])) ms,
            and_assoc]

instance : DecidableEq JsonVal := fun a b =>
  decidable_of_iff (beqVal a b = true) (beqVal_iff a b)

/-- Python truthiness of a JSON-shaped value (`bool(v)`). -/
def truthy : JsonVal → Bool
  | .null => false
  | .boolean b => b
  | .num n => n != 0
  | .str s => s != ""
  | .arr xs => !xs.isEmpty
  | .obj kvs => !kvs.isEmpty

/-- Membership test `v in (None, "", [], {})` from the sanitizer: Python `==`
against each of the four empty literals. -/
def isEmptyLiteral : JsonVal → Bool
  | .null => true
  | .str s => s == ""
  | .arr xs => xs.isEmpty
  | .obj kvs => kvs.isEmpty
  | _ => false

/-- Dictionary lookup `d.get(k)` on an association list (first match). -/
def getKey : List (String × JsonVal) → String → Option JsonVal
  | [], _ => none
  | (k, v) :: rest, key => if k = key then some v else getKey rest key

/-- Dictionary update `d[k] = v`: replaces the first binding of the key in
place, or appends a new binding at the end, as CPython dicts do. -/
def setKey : List (String × JsonVal) → String → JsonVal → List (String × JsonVal)
  | [], key, v => [(key, v)]
  | (k, w) :: rest, key, v =>
    if k = key then (key, v) :: rest else (k, w) :: setKey rest key v

/-! ## Payload sanitizer (`remove_empty`, src/main.py lines 244 to 256) -/

mutual

/-- Translation of `remove_empty`: on a dict it rebuilds the dict keeping a
binding `(k, v)` only when `v not in (None, "", [], {})` and
`remove_empty(v) != {}`, with value `remove_empty(v)`; on a list it first
builds `cleaned = [remove_empty(v) for v in obj if v not in (None, "", [], {})]`
and then keeps the cleaned elements different from `{}`; anything else is
returned unchanged. -/
def remove_empty : JsonVal → JsonVal
  | .obj kvs => .obj (removeEmptyPairs kvs)
  | .arr xs => .arr ((removeEmptyElems xs).filter (fun w => !beqVal w (JsonVal.obj [])))
  | v => v

/-- Body of the dict comprehension inside `remove_empty`. -/
def removeEmptyPairs : List (String × JsonVal) → List (String × JsonVal)
  | [] => []
  | (k, v) :: rest =>
    if !isEmptyLiteral v && !beqVal (remove_empty v) (JsonVal.obj []) then
      (k, remove_empty v) :: removeEmptyPairs rest
    else removeEmptyPairs rest

/-- Body of the list comprehension `cleaned` inside `remove_empty`. -/
def removeEmptyElems : List JsonVal → List JsonVal
  | [] => []
  | v :: rest =>
    if isEmptyLiteral v then removeEmptyElems rest
    else remove_empty v :: removeEmptyElems rest

end

mutual

/-- Sanitizer as the specification words it, for comparison with
`remove_empty`: on a mapping, recursively sanitize each value and drop a key
iff its original value is one of the four empty literals or its sanitized
value is an empty mapping; on a sequence, drop empty-literal elements before
recursing, recurse on the rest, and drop elements whose sanitized result is
an empty mapping; scalars pass through unchanged. -/
def sanitizeSpec : JsonVal → JsonVal
  | .obj kvs => .obj (sanitizeSpecPairs kvs)
  | .arr xs => .arr (sanitizeSpecElems xs)
  | v => v

/-- Mapping clause of the specification sanitizer. -/
def sanitizeSpecPairs : List (String × JsonVal) → List (String × JsonVal)
  | [] => []
  | (k, v) :: rest =>
    if isEmptyLiteral v = true ∨ sanitizeSpec v = JsonVal.obj [] then
      sanitizeSpecPairs rest
    else (k, sanitizeSpec v) :: sanitizeSpecPairs rest

/-- Sequence clause of the specification sanitizer. -/
def sanitizeSpecElems : List JsonVal → List JsonVal
  | [] => []
  | v :: rest =>
    if isEmptyLiteral v then sanitizeSpecElems rest
    else if sanitizeSpec v = JsonVal.obj [] then sanitizeSpecElems rest
    else sanitizeSpec v :: sanitizeSpecElems rest

end

/-- Condition under which an element or mapping value does not "vanish": if
its sanitization is the empty sequence, it already was the empty sequence.
A nonempty sequence sanitizing to the empty sequence survives a first
sanitization pass of its container (the container compares it against the
empty mapping only) but is removed by a second pass. -/
def vanishOk (v : JsonVal) : Bool :=
  !beqVal (remove_empty v) (.arr []) || beqVal v (.arr [])

mutual

/-- Predicate for values in which every sequence element and every mapping
value, at every depth, satisfies `vanishOk`. -/
def noVanishing : JsonVal → Bool
  | .arr xs => noVanishingElems xs
  | .obj kvs => noVanishingPairs kvs
  | _ => true

def noVanishingElems : List JsonVal → Bool
  | [] => true
  | v :: rest => vanishOk v && noVanishing v && noVanishingElems rest

def noVanishingPairs : List (String × JsonVal) → Bool
  | [] => true
  | kv :: rest => vanishOk kv.2 && noVanishing kv.2 && noVanishingPairs rest

end

/-! ## URL path extraction

Model of `urllib.parse.urlparse(url).path` (CPython 3.11+): unsafe bytes are
removed, a scheme prefix and a `//`-introduced netloc are stripped, the
fragment and query are cut off, and for schemes that use parameters a
trailing `;parameters` part of the last segment is cut off. -/

/-- Characters allowed in a scheme after the initial letter. -/
def schemeChar (c : Char) : Bool :=
  c.isAlpha || c.isDigit || c == '+' || c == '-' || c == '.'

/-- Removal of the unsafe bytes tab, carriage return and newline. -/
def removeUnsafe (cs : List Char) : List Char :=
  cs.filter (fun c => !(c == '\t' || c == '\r' || c == '\n'))

/-- Scheme detection: the text before the first colon is a scheme when the
colon is not first, the first character is an ASCII letter and the remaining
characters are scheme characters; the scheme is lowercased. -/
def splitScheme (cs : List Char) : String × List Char :=
  match cs.findIdx? (· = ':') with
  | none => ("", cs)
  | some i =>
    if 0 < i ∧ (cs.headD ' ').isAlpha ∧ ((cs.take i).drop 1).all schemeChar then
      (String.mk ((cs.take i).map Char.toLower), cs.drop (i + 1))
    else ("", cs)

/-- Netloc removal for a string starting with two slashes: everything up to
the next slash, question mark or hash belongs to the authority. -/
def dropNetloc (cs : List Char) : List Char :=
  (cs.drop 2).dropWhile (fun c => !(c == '/' || c == '?' || c == '#'))

/-- Index of the last occurrence of a character (Python `rfind`), 0 when the
character does not occur (only used under a containment guard). -/
def rfindIdx (cs : List Char) (c : Char) : Nat :=
  match cs.reverse.findIdx? (· = c) with
  | none => 0
  | some j => cs.length - 1 - j

/-- Index of the first occurrence of a character at or after a start index
(Python `find` with a start argument). -/
def findIdxFrom (cs : List Char) (start : Nat) (c : Char) : Option Nat :=
  match (cs.drop start).findIdx? (· = c) with
  | none => none
  | some j => some (start + j)

/-- Schemes for which `urlparse` splits `;parameters` off the path. -/
def usesParams : List String :=
  ["", "ftp", "hdl", "prospero", "http", "imap", "https", "shttp", "rtsp",
   "rtspu", "sip", "sips", "mms", "sftp", "tel"]

/-- Parameter removal `_splitparams` of `urlparse`, keeping the path part:
the split happens at the first semicolon after the last slash. -/
def splitParamsPath (cs : List Char) : List Char :=
  if cs.contains '/' then
    match findIdxFrom cs (rfindIdx cs '/') ';' with
    | none => cs
    | some i => cs.take i
  else
    match cs.findIdx? (· = ';') with
    | none => cs
    | some i => cs.take i

/-- Path component of a parsed URL, as a character list. -/
def urlparsePath (url : String) : List Char :=
  let cs0 := removeUnsafe url.toList
  let sr := splitScheme cs0
  let cs1 := if sr.2.take 2 = ['/', '/'] then dropNetloc sr.2 else sr.2
  let cs2 := cs1.takeWhile (· ≠ '#')
  let cs3 := cs2.takeWhile (· ≠ '?')
  if usesParams.contains sr.1 ∧ cs3.contains ';' then splitParamsPath cs3 else cs3

/-- Character-level split on a separator, mirroring Python `str.split(sep)`
(which yields one, possibly empty, piece more than the number of
separators). -/
def splitOnChar : List Char → Char → List (List Char)
  | [], _ => [[]]
  | c :: rest, sep =>
    let r := splitOnChar rest sep
    if c = sep then [] :: r
    else
      match r with
      | [] => [[c]]
      | h :: t => (c :: h) :: t

/-- Evaluation of `[p for p in urlparse(uri).path.split("/") if p]`. -/
def pathParts (u : String) : List String :=
  ((splitOnChar (urlparsePath u) '/').map (fun cs => String.mk cs)).filter
    (fun s => s ≠ "")

/-! ## RDF identity extractor (`_extract_record_info`, src/main.py 49 to 74) -/

/-- Nodes of an RDF graph as rdflib exposes them: URI references, blank
nodes and literals. -/
inductive RDFNode where
  | uri (u : String)
  | blank (id : String)
  | lit (s : String)
deriving DecidableEq

/-- A subject-predicate-object triple; predicates in the graphs at hand are
always URIs, kept as plain strings. -/
structure Triple where
  subj : RDFNode
  pred : String
  obj : RDFNode
deriving DecidableEq

/-- URI of the Dublin Core identifier predicate `DCTERMS.identifier`. -/
def dctermsIdentifier : String := "http://purl.org/dc/terms/identifier"

/-- Scan of `g.triples((None, DCTERMS.identifier, None))` keeping the first
subject that is a URI reference. -/
def findIdentifierSubject : List Triple → Option String
  | [] => none
  | t :: rest =>
    if t.pred = dctermsIdentifier then
      match t.subj with
      | .uri u => some u
      | _ => findIdentifierSubject rest
    else findIdentifierSubject rest

/-- Evaluation of `re.sub(r"\.ttl$", "", filename, flags=re.IGNORECASE)`:
the pattern is anchored, so at most the final four characters are removed,
when they spell `.ttl` in any case (the letters at hand are ASCII, so
character-wise lowercasing matches the case-insensitive regex). -/
def stripTtl (s : String) : String :=
  let cs := s.toList
  if (cs.reverse.take 4).reverse.map Char.toLower = ['.', 't', 't', 'l'] then
    String.mk (cs.take (cs.length - 4))
  else s

/-- Failure modes of the extractor, each surfaced as an HTTP 400. -/
inductive ExtractErr where
  | invalidRDF (msg : String)
  | missingIdentifier
  | malformedURIPath (uri : String)
deriving DecidableEq

/-- Translation of `_extract_record_info`. Turtle parsing is performed by
rdflib, outside this model: the function receives the parse outcome (the
graph as a triple list in iteration order, or the parser error message). -/
def extract_record_info (parsed : Except String (List Triple)) :
    Except ExtractErr (String × String × String) :=
  match parsed with
  | .error msg => .error (.invalidRDF msg)
  | .ok g =>
    match findIdentifierSubject g with
    | none => .error .missingIdentifier
    | some u =>
      let path_parts := pathParts u
      if path_parts.length < 2 then .error (.malformedURIPath u)
      else
        let filename := path_parts.getD (path_parts.length - 1) ""
        let category := path_parts.getD (path_parts.length - 2) ""
        let record_id := stripTtl filename
        .ok (record_id, category, u)

/-! ## Content encoding helpers used by the commit flow -/

/-- UTF-8 encoding of one code point, as `str.encode()` produces it. -/
def utf8EncodeCharNat (n : Nat) : List Nat :=
  if n < 128 then [n]
  else if n < 2048 then [192 + n / 64, 128 + n % 64]
  else if n < 65536 then [224 + n / 4096, 128 + n / 64 % 64, 128 + n % 64]
  else [240 + n / 262144, 128 + n / 4096 % 64, 128 + n / 64 % 64, 128 + n % 64]

/-- UTF-8 byte sequence of a string. -/
def utf8Bytes (s : String) : List Nat :=
  s.data.flatMap (fun c => utf8EncodeCharNat c.toNat)

/-- Base64 alphabet in index order. -/
def b64Alphabet : List Char :=
  "ABCDEFGHIJKLMNOPQRSTUVWXYZabcdefghijklmnopqrstuvwxyz0123456789+/".toList

/-- Character of a six-bit group. -/
def b64Char (n : Nat) : Char := b64Alphabet.getD n 'A'

/-- Base64 encoding of a byte list, three bytes at a time with `=` padding,
as `base64.b64encode` produces it. -/
def base64Chunks : List Nat → List Char
  | [] => []
  | [a] => [b64Char (a / 4), b64Char (a % 4 * 16), '=', '=']
  | [a, b] => [b64Char (a / 4), b64Char (a % 4 * 16 + b / 16), b64Char (b % 16 * 4), '=']
  | a :: b :: c :: rest =>
    b64Char (a / 4) :: b64Char (a % 4 * 16 + b / 16) ::
      b64Char (b % 16 * 4 + c / 64) :: b64Char (c % 64) :: base64Chunks rest

/-- Evaluation of `base64.b64encode(rdf_text.encode()).decode()`. -/
def base64Encode (s : String) : String := String.mk (base64Chunks (utf8Bytes s))

/-- Removal of all trailing slashes, Python `str.rstrip("/")`. -/
def rstripSlash (s : String) : String :=
  String.mk ((s.toList.reverse.dropWhile (fun c => c = '/')).reverse)

/-- Single-quote character, used in the literal commit messages. -/
def sq : String := String.singleton (Char.ofNat 39)

/-! ## Content store client (`commit_rdf_to_github`, src/main.py 80 to 128) -/

/-- Body of the `PUT` request sent to the contents API: commit message,
base64 content, branch, and the optional `sha` key, which the code includes
only when the captured hash is truthy. -/
structure PutPayload where
  message : String
  content : String
  branch : String
  sha : Option String
deriving DecidableEq

/-- Network requests the commit flow can issue, in order. -/
inductive GHEvent where
  | getContents (path : String)
  | putContents (path : String) (payload : PutPayload)
deriving DecidableEq

/-- Outcome of the preflight `GET`: HTTP status, the value of the `sha`
field of the JSON body if present (consulted only on status 200), and the
response text (used in the error message otherwise). -/
structure PreResponse where
  status : Nat
  shaField : Option String
  text : String
deriving DecidableEq

/-- Outcome of the `PUT`: a transport or status error raised by httpx, or a
2xx response with a parsed JSON body. -/
inductive PutOutcome where
  | httpError (msg : String)
  | ok (body : JsonVal)
deriving DecidableEq

/-- Failure modes of the commit flow; all are surfaced as HTTP 500 except
the validation failures, which are HTTP 400. The preflight failure is
raised as an `HTTPException` inside the `try` block and re-wrapped by the
generic handler, still as a 500. -/
inductive CommitErr where
  | configMissing
  | validation (e : ExtractErr)
  | preflightFailed (text : String)
  | requestFailed (msg : String)
  | unexpected
deriving DecidableEq

/-- Success value of the commit flow. URL fields hold the JSON values found
at `commit.html_url` and `content.html_url` of the response (null when
missing). -/
structure CommitResult where
  status : String
  action : String
  record_id : String
  category : String
  commit_url : JsonVal
  file_url : JsonVal
  message : String
deriving DecidableEq

/-- Dictionary access `v.get(k, dflt)`; `none` models the `AttributeError`
Python raises when `v` is not a mapping. -/
def jsonGet (v : JsonVal) (k : String) (dflt : JsonVal) : Option JsonVal :=
  match v with
  | .obj kvs => some ((getKey kvs k).getD dflt)
  | _ => none

/-- Extraction of `commit_data.get(part, {}).get("html_url")` from the put
response body. -/
def htmlUrlOf (body : JsonVal) (part : String) : Option JsonVal :=
  match jsonGet body part (.obj []) with
  | none => none
  | some c =>
    match jsonGet c "html_url" .null with
    | none => none
    | some u => some u

/-- Repository name from the module-level configuration. -/
def GITHUB_REPO : String := "assessment-component-metadata-records"

/-- Branch from the module-level configuration. -/
def GITHUB_BRANCH : String := "main"

/-- Body of the `PUT` request as the code builds it: the commit message
identifying record and category, the base64 content, the configured branch,
and the `sha` value to include, when any. -/
def mkPutPayload (record_id category rdf_text : String) (sha : Option String) :
    PutPayload :=
  { message := "Add or update RDF record " ++ sq ++ record_id ++ sq ++
      " in category " ++ sq ++ category ++ sq ++ "."
    content := base64Encode rdf_text
    branch := GITHUB_BRANCH
    sha := sha }

/-- Stage of `commit_rdf_to_github` after a successful identity extraction:
preflight read, then the write, building the result. The network is an
oracle: `pre` is what the preflight `GET` would return and `put` what the
`PUT` would return; the first component of the result lists the requests
actually issued, in order. -/
def commit_after_extract (record_id category rdf_text : String)
    (pre : PreResponse) (put : PutOutcome) :
    List GHEvent × Except CommitErr CommitResult :=
  let path := rstripSlash category ++ "/" ++ record_id ++ ".ttl"
  let getEv := GHEvent.getContents path
  if pre.status ≠ 200 ∧ pre.status ≠ 404 then
    ([getEv], .error (.preflightFailed pre.text))
  else
        let shaVal : Option String := if pre.status = 200 then pre.shaField else none
        let shaTruthy : Bool := match shaVal with | some s => s != "" | none => false
        let payload : PutPayload :=
          mkPutPayload record_id category rdf_text (if shaTruthy then shaVal else none)
        let putEv := GHEvent.putContents path payload
        match put with
        | .httpError m => ([getEv, putEv], .error (.requestFailed m))
        | .ok body =>
          match htmlUrlOf body "commit", htmlUrlOf body "content" with
          | some cu, some fu =>
            ([getEv, putEv], .ok
              { status := "success"
                action := if shaTruthy then "update" else "create"
                record_id := record_id
                category := category
                commit_url := cu
                file_url := fu
                message := "RDF record " ++ sq ++ record_id ++ sq ++ " successfully " ++
                  (if shaTruthy then "updated" else "created") ++
                  " in GitHub repository " ++ sq ++ GITHUB_REPO ++ sq ++ "." })
          | _, _ => ([getEv, putEv], .error .unexpected)

/-- Translation of `commit_rdf_to_github`: configuration check, identity
extraction, then the preflight-and-write stage. `configOk` is the
`all([GITHUB_TOKEN, GITHUB_OWNER, GITHUB_REPO])` check. -/
def commit_rdf_to_github (configOk : Bool) (parsed : Except String (List Triple))
    (rdf_text : String) (pre : PreResponse) (put : PutOutcome) :
    List GHEvent × Except CommitErr CommitResult :=
  if !configOk then ([], .error .configMissing)
  else
    match extract_record_info parsed with
    | .error e => ([], .error (.validation e))
    | .ok (record_id, category, _uri) =>
      commit_after_extract record_id category rdf_text pre put

/-! ## Registry ID resolver (`fetch_internal_id`, src/main.py 177 to 210) -/

/-- Outcome of one GraphQL POST as `fetch_internal_id` sees it: either some
exception was raised inside the `try` block by `post`, `raise_for_status`
or `json` (network error, timeout, non-2xx status, unparseable body), or a
parsed JSON body was obtained. -/
inductive QueryOutcome where
  | httpError (msg : String)
  | success (data : JsonVal)
deriving DecidableEq

/-- Query field selected for a kind: `searchSubjects` for subjects and
`searchDomains` for domains. -/
def queryFieldFor (kind : String) : Option String :=
  if kind = "subject" then some "searchSubjects"
  else if kind = "domain" then some "searchDomains"
  else none

/-- Translation of `fetch_internal_id` for a given query field. Every
failure inside the `try` block is caught and turns into `none` (the
function returns `None`, never raises): transport errors, a `data` or
results access on a non-mapping, a non-list or empty result list, a first
entry that is not a mapping, and a first entry whose `id` is missing or
falsy. Only a non-empty result list whose first entry is a mapping with a
truthy `id` yields `some id`. -/
def fetch_internal_id (queryField : String) (outcome : QueryOutcome) : Option JsonVal :=
  match outcome with
  | .httpError _ => none
  | .success data =>
    match jsonGet data "data" (.obj []) with
    | none => none
    | some d =>
      match jsonGet d queryField (.arr []) with
      | none => none
      | some results =>
        match results with
        | .arr (first :: _) =>
          match first with
          | .obj fkvs =>
            let idv := (getKey fkvs "id").getD .null
            if truthy idv then some idv else none
          | _ => none
        | _ => none

/-! ## Batch resolution (`resolve_subject_domain_ids`, src/main.py 215 to 242) -/

/-- Accumulating loop from the two resolution passes: walk the input left to
right, appending each resolved ID and skipping unresolved entries. -/
def resolveLoop {α β : Type} (f : α → Option β) (xs : List α) : List β :=
  xs.foldl (fun acc x => match f x with | some y => acc ++ [y] | none => acc) []

/-- Translation of `resolve_subject_domain_ids`, with the per-identifier
query outcomes supplied by the oracles `oS` (subject kind) and `oD` (domain
kind). The record under `fairsharing_record` (defaulting to an empty dict)
has its `subject_ids` and `domain_ids` lists, when present, replaced by the
accumulated resolution results, and is then stored back under
`fairsharing_record`. -/
def resolve_subject_domain_ids (oS oD : JsonVal → QueryOutcome) (body_dict : JsonVal) :
    JsonVal :=
  match body_dict with
  | .obj kvs =>
    let record := (getKey kvs "fairsharing_record").getD (.obj [])
    let record1 :=
      match record with
      | .obj rkvs =>
        let r1 :=
          match getKey rkvs "subject_ids" with
          | some (.arr xs) =>
            setKey rkvs "subject_ids"
              (.arr (resolveLoop (fun iri => fetch_internal_id "searchSubjects" (oS iri)) xs))
          | _ => rkvs
        let r2 :=
          match getKey r1 "domain_ids" with
          | some (.arr ys) =>
            setKey r1 "domain_ids"
              (.arr (resolveLoop (fun iri => fetch_internal_id "searchDomains" (oD iri)) ys))
          | _ => r1
        JsonVal.obj r2
      | other => other
    .obj (setKey kvs "fairsharing_record" record1)
  | other => other

/-! ## Registry submission flow (`submit_record`, src/main.py 174 to 287) -/

/-- Network requests of the authenticate-and-send stage. -/
inductive RegEvent where
  | authPost
  | dataPost (payload : JsonVal)
deriving DecidableEq

/-- Outcome of the authentication POST: an httpx exception (transport
failure, or non-2xx via `raise_for_status`), or a 2xx response with parsed
JSON body. -/
inductive AuthOutcome where
  | httpError (msg : String)
  | ok (body : JsonVal)
deriving DecidableEq

/-- Outcome of the data POST, same shape as the authentication outcome. -/
inductive DataOutcome where
  | httpError (msg : String)
  | ok (status : Nat) (body : JsonVal)
deriving DecidableEq

/-- Failure modes of the submission flow. All surface as HTTP 500: httpx
exceptions propagate unhandled to the framework boundary, `missingJwt` is
the explicit `HTTPException(500, "Missing jwt token")`, and `authBadBody`
is the `AttributeError` from `auth.json().get("jwt")` on a non-mapping
body. -/
inductive SubmitErr where
  | authHttpFailure (msg : String)
  | authBadBody
  | missingJwt
  | dataHttpFailure (msg : String)
deriving DecidableEq

/-- Success value of the submission flow. -/
structure SubmitSuccess where
  status : String
  data_status_code : Nat
  response : JsonVal
deriving DecidableEq

/-- Translation of the `submit_record` flow after request validation:
resolve subject and domain IDs, sanitize the result with `remove_empty`,
authenticate, and post the sanitized payload with the obtained token. The
first component lists the requests of the authenticate-and-send stage in
order. -/
def submit_record (oS oD : JsonVal → QueryOutcome) (body : JsonVal)
    (auth : AuthOutcome) (data : DataOutcome) :
    List RegEvent × Except SubmitErr SubmitSuccess :=
  let resolved := resolve_subject_domain_ids oS oD body
  let body_dict := remove_empty resolved
  match auth with
  | .httpError m => ([.authPost], .error (.authHttpFailure m))
  | .ok ab =>
    match ab with
    | .obj akvs =>
      let token := (getKey akvs "jwt").getD .null
      if !truthy token then ([.authPost], .error .missingJwt)
      else
        match data with
        | .httpError m => ([.authPost, .dataPost body_dict], .error (.dataHttpFailure m))
        | .ok st db =>
          ([.authPost, .dataPost body_dict], .ok ⟨"success", st, db⟩)
    | _ => ([.authPost], .error .authBadBody)

/-- Authentication outcomes that yield a usable session token: a 2xx
response whose JSON body is a mapping with a truthy `jwt` field. -/
def usableJwt : AuthOutcome → Bool
  | .httpError _ => false
  | .ok (.obj akvs) => truthy ((getKey akvs "jwt").getD .null)
  | .ok _ => false

/-- Errors of the authentication stage of the submission flow. -/
def isAuthStageErr : SubmitErr → Bool
  | .authHttpFailure _ => true
  | .authBadBody => true
  | .missingJwt => true
  | .dataHttpFailure _ => false

/-! ## Supporting lemmas -/

theorem beqVal_eq_decide (a b : JsonVal) : beqVal a b = decide (a = b) := by
  cases hb : beqVal a b
  · have : ¬a = b := fun h => by
      have := (beqVal_iff a b).mpr h
      rw [hb] at this
      exact Bool.false_ne_true this
    simp [this]
  · have := (beqVal_iff a b).mp hb
    simp [this]

theorem resolveLoop_eq_filterMap {α β : Type} (f : α → Option β) (xs : List α) :
    resolveLoop f xs = xs.filterMap f := by
  have h : ∀ (ys : List α) (acc : List β),
      ys.foldl (fun acc x => match f x with | some y => acc ++ [y] | none => acc) acc =
        acc ++ ys.filterMap f := by
    intro ys
    induction ys with
    | nil => intro acc; simp
    | cons x ys ih =>
      intro acc
      cases hf : f x <;> simp [List.filterMap_cons, hf, ih]
  simpa [resolveLoop] using h xs []

theorem getKey_setKey_same (l : List (String × JsonVal)) (k : String) (v : JsonVal) :
    getKey (setKey l k v) k = some v := by
  induction l with
  | nil => simp [setKey, getKey]
  | cons kv rest ih =>
    obtain ⟨k1, w⟩ := kv
    by_cases h : k1 = k <;> simp [setKey, getKey, h, ih]

theorem getKey_setKey_other (l : List (String × JsonVal)) (k k2 : String) (v : JsonVal)
    (h : k ≠ k2) : getKey (setKey l k v) k2 = getKey l k2 := by
  induction l with
  | nil => simp [setKey, getKey, h]
  | cons kv rest ih =>
    obtain ⟨k1, w⟩ := kv
    by_cases h1 : k1 = k
    · subst h1
      simp [setKey, getKey, h]
    · simp [setKey, getKey, h1, ih]

theorem findIdentifierSubject_eq_of_unique (g : List Triple) (u : String)
    (hex : ∃ t ∈ g, t.pred = dctermsIdentifier ∧ t.subj = RDFNode.uri u)
    (huniq : ∀ t ∈ g, t.pred = dctermsIdentifier → ∀ w, t.subj = RDFNode.uri w → w = u) :
    findIdentifierSubject g = some u := by
  induction g with
  | nil => simp at hex
  | cons t rest ih =>
    obtain ⟨t0, ht0mem, ht0p, ht0s⟩ := hex
    have hrest : t0 ∈ rest → findIdentifierSubject rest = some u := fun hm =>
      ih ⟨t0, hm, ht0p, ht0s⟩ (fun t2 h2 => huniq t2 (List.mem_cons_of_mem _ h2))
    by_cases hp : t.pred = dctermsIdentifier
    · cases hs : t.subj with
      | uri w =>
        have hw := huniq t (List.mem_cons_self _ _) hp w hs
        simp [findIdentifierSubject, hp, hs, hw]
      | blank bid =>
        rcases List.mem_cons.mp ht0mem with h1 | h1
        · subst h1; rw [hs] at ht0s; exact absurd ht0s (by simp)
        · simp [findIdentifierSubject, hp, hs, hrest h1]
      | lit s =>
        rcases List.mem_cons.mp ht0mem with h1 | h1
        · subst h1; rw [hs] at ht0s; exact absurd ht0s (by simp)
        · simp [findIdentifierSubject, hp, hs, hrest h1]
    · rcases List.mem_cons.mp ht0mem with h1 | h1
      · subst h1; exact absurd ht0p hp
      · simp [findIdentifierSubject, hp, hrest h1]

theorem findIdentifierSubject_eq_none (g : List Triple)
    (h : ∀ t ∈ g, t.pred = dctermsIdentifier → ∀ w, t.subj ≠ RDFNode.uri w) :
    findIdentifierSubject g = none := by
  induction g with
  | nil => rfl
  | cons t rest ih =>
    have hrest := ih (fun t2 h2 => h t2 (List.mem_cons_of_mem _ h2))
    by_cases hp : t.pred = dctermsIdentifier
    · cases hs : t.subj with
      | uri w => exact absurd hs (h t (List.mem_cons_self _ _) hp w)
      | blank bid => simp [findIdentifierSubject, hp, hs, hrest]
      | lit s => simp [findIdentifierSubject, hp, hs, hrest]
    · simp [findIdentifierSubject, hp, hrest]

theorem remove_empty_eq_null_iff (v : JsonVal) : remove_empty v = .null ↔ v = .null := by
  cases v <;> simp [remove_empty]

theorem remove_empty_eq_str_iff (v : JsonVal) (s : String) :
    remove_empty v = .str s ↔ v = .str s := by
  cases v <;> simp [remove_empty]

theorem remove_empty_eq_sanitizeSpec : ∀ v, remove_empty v = sanitizeSpec v := by
  intro v
  induction v using JsonVal.myInduct with
  | hnull => simp [remove_empty, sanitizeSpec]
  | hbool b => simp [remove_empty, sanitizeSpec]
  | hnum n => simp [remove_empty, sanitizeSpec]
  | hstr s => simp [remove_empty, sanitizeSpec]
  | harr xs ih =>
    simp only [remove_empty, sanitizeSpec, JsonVal.arr.injEq]
    induction xs with
    | nil => simp [removeEmptyElems, sanitizeSpecElems]
    | cons v rest ihl =>
      have hv : remove_empty v = sanitizeSpec v := ih v (by simp)
      have hrest := ihl (fun w hw => ih w (by simp [hw]))
      have hrest2 : List.filter (fun w => !decide (w = JsonVal.obj []))
          (removeEmptyElems rest) = sanitizeSpecElems rest := by
        simpa [beqVal_eq_decide] using hrest
      by_cases he : isEmptyLiteral v = true
      · simp [removeEmptyElems, sanitizeSpecElems, he, hrest]
      · have he2 : isEmptyLiteral v = false := by simpa using he
        by_cases hre : remove_empty v = JsonVal.obj []
        · simp [removeEmptyElems, sanitizeSpecElems, he2, List.filter_cons,
            beqVal_eq_decide, hre, hv.symm, hrest2]
        · simp [removeEmptyElems, sanitizeSpecElems, he2, List.filter_cons,
            beqVal_eq_decide, hre, hv.symm, hrest2]
  | hobj kvs ih =>
    simp only [remove_empty, sanitizeSpec, JsonVal.obj.injEq]
    induction kvs with
    | nil => simp [removeEmptyPairs, sanitizeSpecPairs]
    | cons kv rest ihl =>
      obtain ⟨k, v⟩ := kv
      have hv : remove_empty v = sanitizeSpec v := ih ⟨k, v⟩ (by simp)
      have hrest := ihl (fun kv2 hkv2 => ih kv2 (by simp [hkv2]))
      by_cases he : isEmptyLiteral v = true
      · simp [removeEmptyPairs, sanitizeSpecPairs, he, hrest]
      · have he2 : isEmptyLiteral v = false := by simpa using he
        by_cases hre : remove_empty v = JsonVal.obj []
        · simp [removeEmptyPairs, sanitizeSpecPairs, he2, beqVal_eq_decide, hre,
            hv.symm, hrest]
        · simp [removeEmptyPairs, sanitizeSpecPairs, he2, beqVal_eq_decide, hre,
            hv.symm, hrest]

theorem isEmptyLiteral_remove_empty_false (v : JsonVal) (hv : isEmptyLiteral v = false)
    (hvan : vanishOk v = true) (hobj : remove_empty v ≠ JsonVal.obj []) :
    isEmptyLiteral (remove_empty v) = false := by
  cases hre : remove_empty v with
  | null =>
    have := (remove_empty_eq_null_iff v).mp hre
    rw [this] at hv
    simp [isEmptyLiteral] at hv
  | boolean b => simp [isEmptyLiteral]
  | num n => simp [isEmptyLiteral]
  | str s =>
    have := (remove_empty_eq_str_iff v s).mp hre
    rw [this] at hv
    simpa [isEmptyLiteral] using hv
  | arr ys =>
    cases ys with
    | cons a as => simp [isEmptyLiteral]
    | nil =>
      exfalso
      simp only [vanishOk, hre, beqVal_eq_decide] at hvan
      simp at hvan
      rw [hvan] at hv
      simp [isEmptyLiteral] at hv
  | obj ms =>
    cases ms with
    | cons a as => simp [isEmptyLiteral]
    | nil => exact absurd hre hobj

theorem removeEmptyElems_filter_idem (xs : List JsonVal) :
    (∀ v ∈ xs, noVanishing v = true → remove_empty (remove_empty v) = remove_empty v) →
    noVanishingElems xs = true →
    (removeEmptyElems
        ((removeEmptyElems xs).filter (fun w => !beqVal w (JsonVal.obj [])))).filter
        (fun w => !beqVal w (JsonVal.obj [])) =
      (removeEmptyElems xs).filter (fun w => !beqVal w (JsonVal.obj [])) := by
  induction xs with
  | nil => intro _ _; simp [removeEmptyElems]
  | cons v rest ih =>
    intro hmem h
    simp only [noVanishingElems, Bool.and_eq_true] at h
    obtain ⟨⟨hvan, hnv⟩, hrest⟩ := h
    have hidem := hmem v (by simp) hnv
    have ihR := ih (fun w hw => hmem w (by simp [hw])) hrest
    by_cases he : isEmptyLiteral v = true
    · simp only [removeEmptyElems, he, if_true]
      exact ihR
    · have he2 : isEmptyLiteral v = false := by simpa using he
      by_cases hre : remove_empty v = JsonVal.obj []
      · simp only [removeEmptyElems, he2, Bool.false_eq_true, if_false, List.filter_cons,
          beqVal_eq_decide, hre]
        simpa [beqVal_eq_decide] using ihR
      · have hef := isEmptyLiteral_remove_empty_false v he2 hvan hre
        have hre2 : remove_empty (remove_empty v) ≠ JsonVal.obj [] := by
          rw [hidem]; exact hre
        simp only [removeEmptyElems, he2, Bool.false_eq_true, if_false, List.filter_cons,
          beqVal_eq_decide, hre, decide_eq_true_eq]
        simp only [hre, decide_False, Bool.not_false, if_true, removeEmptyElems, hef,
          Bool.false_eq_true, if_false, List.filter_cons, beqVal_eq_decide, hre2,
          decide_False, Bool.not_false, hidem]
        simpa [beqVal_eq_decide] using ihR

theorem removeEmptyPairs_idem (kvs : List (String × JsonVal)) :
    (∀ kv ∈ kvs, noVanishing kv.2 = true →
      remove_empty (remove_empty kv.2) = remove_empty kv.2) →
    noVanishingPairs kvs = true →
    removeEmptyPairs (removeEmptyPairs kvs) = removeEmptyPairs kvs := by
  induction kvs with
  | nil => intro _ _; simp [removeEmptyPairs]
  | cons kv rest ih =>
    intro hmem h
    obtain ⟨k, v⟩ := kv
    simp only [noVanishingPairs, Bool.and_eq_true] at h
    obtain ⟨⟨hvan, hnv⟩, hrest⟩ := h
    have hidem := hmem ⟨k, v⟩ (by simp) hnv
    have ihR := ih (fun kv2 hkv2 => hmem kv2 (by simp [hkv2])) hrest
    by_cases he : isEmptyLiteral v = true
    · simp only [removeEmptyPairs, he, Bool.not_true, Bool.false_and, Bool.false_eq_true,
        if_false]
      exact ihR
    · have he2 : isEmptyLiteral v = false := by simpa using he
      by_cases hre : remove_empty v = JsonVal.obj []
      · simp only [removeEmptyPairs, he2, Bool.not_false, Bool.true_and, beqVal_eq_decide,
          hre, decide_True, Bool.not_true, Bool.false_eq_true, if_false]
        exact ihR
      · have hef := isEmptyLiteral_remove_empty_false v he2 hvan hre
        have hre2 : remove_empty (remove_empty v) ≠ JsonVal.obj [] := by
          rw [hidem]; exact hre
        simp only [removeEmptyPairs, he2, Bool.not_false, Bool.true_and, beqVal_eq_decide,
          hre, decide_False, Bool.not_false, if_true, hef, hre2, hidem]
        rw [ihR]

theorem remove_empty_idem_of_noVanishing :
    ∀ v, noVanishing v = true → remove_empty (remove_empty v) = remove_empty v := by
  intro v
  induction v using JsonVal.myInduct with
  | hnull => intro _h; simp [remove_empty]
  | hbool b => intro _h; simp [remove_empty]
  | hnum n => intro _h; simp [remove_empty]
  | hstr s => intro _h; simp [remove_empty]
  | harr xs ih =>
    intro h
    simp only [noVanishing] at h
    simp only [remove_empty, JsonVal.arr.injEq]
    exact removeEmptyElems_filter_idem xs ih h
  | hobj kvs ih =>
    intro h
    simp only [noVanishing] at h
    simp only [remove_empty, JsonVal.obj.injEq]
    exact removeEmptyPairs_idem kvs ih h

theorem commit_eq_after_extract (parsed : Except String (List Triple))
    (rdf_text record_id category u : String) (pre : PreResponse) (put : PutOutcome)
    (hex : extract_record_info parsed = .ok (record_id, category, u)) :
    commit_rdf_to_github true parsed rdf_text pre put =
      commit_after_extract record_id category rdf_text pre put := by
  simp [commit_rdf_to_github, hex]

theorem submit_record_events_of_usable (oS oD : JsonVal → QueryOutcome) (body : JsonVal)
    (ab : JsonVal) (data : DataOutcome) (hjwt : usableJwt (.ok ab) = true) :
    (submit_record oS oD body (.ok ab) data).1 =
      [RegEvent.authPost,
       RegEvent.dataPost (remove_empty (resolve_subject_domain_ids oS oD body))] := by
  cases ab with
  | obj akvs =>
    simp only [usableJwt] at hjwt
    cases data <;> simp [submit_record, hjwt]
  | null => simp [usableJwt] at hjwt
  | boolean b => simp [usableJwt] at hjwt
  | num n => simp [usableJwt] at hjwt
  | str s => simp [usableJwt] at hjwt
  | arr xs => simp [usableJwt] at hjwt

/-! ## Claim theorems -/

/-- Claim C1: for every well-formed Turtle document containing exactly one
subject that is a URI and bears a Dublin Core identifier triple, where the
URI path has at least two non-empty segments, identity extraction returns
the triple (record_id, category, subject_uri) with record_id equal to the
last path segment with a trailing `.ttl` suffix (any case) stripped, and
category equal to the second-to-last segment. -/
theorem claim_C1_extract_identity (g : List Triple) (u : String)
    (hex : ∃ t ∈ g, t.pred = dctermsIdentifier ∧ t.subj = RDFNode.uri u)
    (huniq : ∀ t ∈ g, t.pred = dctermsIdentifier → ∀ w, t.subj = RDFNode.uri w → w = u)
    (hlen : 2 ≤ (pathParts u).length) :
    extract_record_info (.ok g) =
      .ok (stripTtl ((pathParts u).getD ((pathParts u).length - 1) ""),
        (pathParts u).getD ((pathParts u).length - 2) "", u) := by
  have hfind := findIdentifierSubject_eq_of_unique g u hex huniq
  simp [extract_record_info, hfind, Nat.not_lt.mpr hlen]

/-- Witness for C1 at a concrete graph: one identifier triple on the subject
URI `https://example.org/records/survey/item123.ttl` extracts record ID
`item123` and category `survey`. -/
theorem claim_C1_extract_identity_witness :
    extract_record_info (.ok
        [⟨.uri "https://example.org/records/survey/item123.ttl", dctermsIdentifier,
          .lit "item123"⟩]) =
      .ok ("item123", "survey", "https://example.org/records/survey/item123.ttl") := by
  have h := claim_C1_extract_identity
    [⟨.uri "https://example.org/records/survey/item123.ttl", dctermsIdentifier, .lit "item123"⟩]
    "https://example.org/records/survey/item123.ttl"
    ⟨⟨.uri "https://example.org/records/survey/item123.ttl", dctermsIdentifier, .lit "item123"⟩,
      by simp, rfl, rfl⟩
    (by intro t ht hp w hw
        simp only [List.mem_singleton] at ht
        subst ht
        cases hw
        rfl)
    (by decide)
  exact h.trans (by rfl)

/-- Claim C9: for every input with zero Dublin Core identifier triples whose
subject is a URI, and for every input whose chosen subject URI has fewer
than two non-empty path segments, identity extraction fails with the
documented validation error (missing identifier, resp. malformed URI path)
and the commit flow issues no network request. -/
theorem claim_C9_validation_no_network (g : List Triple) (rdf_text : String)
    (pre : PreResponse) (put : PutOutcome) :
    ((∀ t ∈ g, t.pred = dctermsIdentifier → ∀ w, t.subj ≠ RDFNode.uri w) →
      commit_rdf_to_github true (.ok g) rdf_text pre put =
        ([], .error (.validation .missingIdentifier)))
    ∧ (∀ u, findIdentifierSubject g = some u → (pathParts u).length < 2 →
      commit_rdf_to_github true (.ok g) rdf_text pre put =
        ([], .error (.validation (.malformedURIPath u)))) := by
  constructor
  · intro h
    have hf := findIdentifierSubject_eq_none g h
    simp [commit_rdf_to_github, extract_record_info, hf]
  · intro u hu hlen
    simp [commit_rdf_to_github, extract_record_info, hu, hlen]

/-- Witness for C9: a graph with no triples, and a graph whose subject URI
path is the single segment `item`, both fail with the documented error and
an empty request trace. -/
theorem claim_C9_validation_no_network_witness :
    commit_rdf_to_github true (.ok []) "x" ⟨200, none, ""⟩ (.ok .null) =
      ([], .error (.validation .missingIdentifier)) ∧
    commit_rdf_to_github true
        (.ok [⟨.uri "https://example.org/item", dctermsIdentifier, .lit "y"⟩])
        "x" ⟨200, none, ""⟩ (.ok .null) =
      ([], .error (.validation (.malformedURIPath "https://example.org/item"))) := by
  constructor
  · exact (claim_C9_validation_no_network [] "x" ⟨200, none, ""⟩ (.ok .null)).1 (by simp)
  · exact (claim_C9_validation_no_network
      [⟨.uri "https://example.org/item", dctermsIdentifier, .lit "y"⟩] "x"
      ⟨200, none, ""⟩ (.ok .null)).2 "https://example.org/item" rfl (by decide)

/-- Claim C2 counterexample: the sanitizer is not idempotent. On the mapping
with one key whose value is the sequence holding a single null, one pass
yields the mapping with that key bound to the empty sequence (the emptied
sequence is compared against the empty mapping only, so it is kept), while
a second pass removes the key. -/
theorem claim_C2_not_idempotent :
    remove_empty (remove_empty (JsonVal.obj [("a", .arr [.null])])) ≠
      remove_empty (JsonVal.obj [("a", .arr [.null])]) := by decide

/-- Claim C2, amended: the sanitizer is idempotent on every structured value
in which every sequence element and mapping value, at every depth, that
sanitizes to the empty sequence already is the empty sequence. In general a
container member that is a nonempty sequence sanitizing to empty survives
the first pass and is removed by the second. -/
theorem claim_C2_idempotent_noVanishing (v : JsonVal) (h : noVanishing v = true) :
    remove_empty (remove_empty v) = remove_empty v :=
  remove_empty_idem_of_noVanishing v h

/-- Witness for the amended C2 at a concrete nested value. -/
theorem claim_C2_idempotent_noVanishing_witness :
    noVanishing (JsonVal.obj [("a", .arr [.num 1, .str ""]), ("b", .str "x")]) = true ∧
    remove_empty (remove_empty (JsonVal.obj [("a", .arr [.num 1, .str ""]), ("b", .str "x")])) =
      remove_empty (JsonVal.obj [("a", .arr [.num 1, .str ""]), ("b", .str "x")]) :=
  ⟨by decide, claim_C2_idempotent_noVanishing _ (by decide)⟩

/-- Claim C5: the sanitizer behaves exactly as specified — on a mapping it
recursively sanitizes each value and drops a key iff its original value is
null, the empty string, the empty sequence or the empty mapping, or its
recursively-sanitized value is an empty mapping; on a sequence it first
drops empty-literal elements, recurses on the rest, then drops elements
whose sanitized result is an empty mapping; scalars are returned
unchanged. -/
theorem claim_C5_sanitizer_spec (v : JsonVal) : remove_empty v = sanitizeSpec v :=
  remove_empty_eq_sanitizeSpec v

/-- Claim C4: for every ordered input sequence of identifier URIs of a given
kind, batch resolution returns exactly the internal IDs of the identifiers
that resolved, in the same relative order as the input, with every
unresolved identifier omitted: the accumulating loop equals `filterMap`,
and both the `subject_ids` and `domain_ids` sequences of the record are
replaced by the `filterMap` of their resolutions. -/
theorem claim_C4_batch_order (oS oD : JsonVal → QueryOutcome) :
    (∀ (f : JsonVal → Option JsonVal) (xs : List JsonVal),
      resolveLoop f xs = xs.filterMap f) ∧
    (∀ kvs rkvs xs ys, getKey kvs "fairsharing_record" = some (.obj rkvs) →
      getKey rkvs "subject_ids" = some (.arr xs) →
      getKey rkvs "domain_ids" = some (.arr ys) →
      ∃ rkvs2, resolve_subject_domain_ids oS oD (.obj kvs) =
          .obj (setKey kvs "fairsharing_record" (.obj rkvs2)) ∧
        getKey rkvs2 "subject_ids" =
          some (.arr (xs.filterMap (fun iri => fetch_internal_id "searchSubjects" (oS iri)))) ∧
        getKey rkvs2 "domain_ids" =
          some (.arr (ys.filterMap (fun iri => fetch_internal_id "searchDomains" (oD iri))))) := by
  constructor
  · intro f xs
    exact resolveLoop_eq_filterMap f xs
  · intro kvs rkvs xs ys h1 h2 h3
    have hset : getKey (setKey rkvs "subject_ids"
        (JsonVal.arr (resolveLoop (fun iri => fetch_internal_id "searchSubjects" (oS iri)) xs)))
        "domain_ids" = some (.arr ys) := by
      rw [getKey_setKey_other _ _ _ _ (by decide)]
      exact h3
    refine ⟨setKey (setKey rkvs "subject_ids"
        (.arr (resolveLoop (fun iri => fetch_internal_id "searchSubjects" (oS iri)) xs)))
        "domain_ids"
        (.arr (resolveLoop (fun iri => fetch_internal_id "searchDomains" (oD iri)) ys)),
      ?_, ?_, ?_⟩
    · simp only [resolve_subject_domain_ids, h1, Option.getD_some, h2, hset]
    · rw [getKey_setKey_other _ _ _ _ (by decide), getKey_setKey_same,
        resolveLoop_eq_filterMap]
    · rw [getKey_setKey_same, resolveLoop_eq_filterMap]

/-- Witness for C4 at a concrete record and oracle: of the subject URIs A
and B only B resolves (to the internal ID 7), so the resolved record binds
subject_ids to the single-element sequence holding 7. -/
theorem claim_C4_batch_order_witness :
    ∃ rkvs2,
      resolve_subject_domain_ids
          (fun v => if v = .str "B" then
            .success (.obj [("data", .obj [("searchSubjects", .arr [.obj [("id", .num 7)]])])])
            else .httpError "down")
          (fun _v => .httpError "down")
          (.obj [("fairsharing_record", .obj
            [("subject_ids", .arr [.str "A", .str "B"]), ("domain_ids", .arr [])])]) =
        .obj (setKey [("fairsharing_record", .obj
          [("subject_ids", .arr [.str "A", .str "B"]), ("domain_ids", .arr [])])]
          "fairsharing_record" (.obj rkvs2)) ∧
      getKey rkvs2 "subject_ids" =
        some (.arr ([JsonVal.str "A", .str "B"].filterMap (fun iri =>
          fetch_internal_id "searchSubjects"
            ((fun v => if v = .str "B" then
              .success (.obj [("data", .obj [("searchSubjects", .arr [.obj [("id", .num 7)]])])])
              else .httpError "down") iri)))) ∧
      getKey rkvs2 "domain_ids" =
        some (.arr (([] : List JsonVal).filterMap (fun iri =>
          fetch_internal_id "searchDomains" ((fun _v => QueryOutcome.httpError "down") iri)))) :=
  (claim_C4_batch_order
      (fun v => if v = .str "B" then
        .success (.obj [("data", .obj [("searchSubjects", .arr [.obj [("id", .num 7)]])])])
        else .httpError "down")
      (fun _v => .httpError "down")).2
    [("fairsharing_record", .obj
      [("subject_ids", .arr [.str "A", .str "B"]), ("domain_ids", .arr [])])]
    [("subject_ids", .arr [.str "A", .str "B"]), ("domain_ids", .arr [])]
    [.str "A", .str "B"] [] rfl rfl rfl

/-- Claim C8 counterexample: the claim states the resolver returns the first
entry's ID whenever the result list is non-empty and that ID is non-null,
but on a first entry whose ID is the empty string (non-null) the code's
truthiness test fails and the resolver returns unresolved. -/
theorem claim_C8_truthiness_counterexample :
    fetch_internal_id "searchSubjects"
        (.success (.obj [("data", .obj [("searchSubjects",
          .arr [.obj [("id", .str "")]])])])) = none ∧
      JsonVal.str "" ≠ JsonVal.null := by
  constructor
  · rfl
  · decide

/-- Claim C8, amended: every failure (network error, non-success status,
malformed response, a non-list or empty result list, a first entry that is
not a mapping, or a first entry whose ID is missing or falsy — null, empty
string, zero, false, empty sequence or empty mapping) makes the resolver
return unresolved rather than raise; it returns an internal ID exactly when
the result list is non-empty and its first entry is a mapping whose ID is
truthy, in which case it returns that first entry's ID. -/
theorem claim_C8_resolver_failures (queryField : String) :
    (∀ m, fetch_internal_id queryField (.httpError m) = none) ∧
    (∀ outcome i, fetch_internal_id queryField outcome = some i ↔
      ∃ data d fkvs rest,
        outcome = .success data ∧
        jsonGet data "data" (.obj []) = some d ∧
        jsonGet d queryField (.arr []) = some (.arr (.obj fkvs :: rest)) ∧
        (getKey fkvs "id").getD .null = i ∧ truthy i = true) := by
  constructor
  · intro m
    rfl
  · intro outcome i
    constructor
    · intro h
      cases outcome with
      | httpError m => simp [fetch_internal_id] at h
      | success data =>
        cases hd : jsonGet data "data" (.obj []) with
        | none => simp [fetch_internal_id, hd] at h
        | some d =>
          cases hr : jsonGet d queryField (.arr []) with
          | none => simp [fetch_internal_id, hd, hr] at h
          | some results =>
            cases results with
            | null => simp [fetch_internal_id, hd, hr] at h
            | boolean b => simp [fetch_internal_id, hd, hr] at h
            | num n => simp [fetch_internal_id, hd, hr] at h
            | str s => simp [fetch_internal_id, hd, hr] at h
            | obj ms => simp [fetch_internal_id, hd, hr] at h
            | arr l =>
              cases l with
              | nil => simp [fetch_internal_id, hd, hr] at h
              | cons first rest =>
                cases first with
                | null => simp [fetch_internal_id, hd, hr] at h
                | boolean b => simp [fetch_internal_id, hd, hr] at h
                | num n => simp [fetch_internal_id, hd, hr] at h
                | str s => simp [fetch_internal_id, hd, hr] at h
                | arr l2 => simp [fetch_internal_id, hd, hr] at h
                | obj fkvs =>
                  by_cases ht : truthy ((getKey fkvs "id").getD .null) = true
                  · simp only [fetch_internal_id, hd, hr, ht, if_true,
                      Option.some.injEq] at h
                    exact ⟨data, d, fkvs, rest, rfl, hd, hr, h, h ▸ ht⟩
                  · simp [fetch_internal_id, hd, hr, ht] at h
    · rintro ⟨data, d, fkvs, rest, rfl, hd, hr, hid, ht⟩
      simp [fetch_internal_id, hd, hr, hid, ht]

/-- Witness for the amended C8: a response whose first result carries the
truthy ID 7 resolves to 7. -/
theorem claim_C8_resolver_failures_witness :
    fetch_internal_id "searchSubjects"
        (.success (.obj [("data", .obj [("searchSubjects",
          .arr [.obj [("id", .num 7)]])])])) = some (.num 7) :=
  ((claim_C8_resolver_failures "searchSubjects").2 _ _).mpr
    ⟨_, _, _, _, rfl, rfl, rfl, rfl, rfl⟩

/-- Claim C3: every commit invocation performs a preflight read of
`{category}/{record_id}.ttl` first; if the read reports the file existing
(status 200) with a content hash, the write includes that hash and a
successful result's action is "update"; if the read reports the file absent
(status 404), no hash is included and a successful result's action is
"create"; any other preflight status fails the commit with a store error
and no write is issued. The captured hash is a content hash proper, i.e. a
nonempty string — the code tests it for Python truthiness. -/
theorem claim_C3_commit_preflight (parsed : Except String (List Triple))
    (rdf_text record_id category u : String) (pre : PreResponse) (put : PutOutcome)
    (hex : extract_record_info parsed = .ok (record_id, category, u)) :
    ((commit_rdf_to_github true parsed rdf_text pre put).1.head? =
      some (.getContents (rstripSlash category ++ "/" ++ record_id ++ ".ttl"))) ∧
    (∀ h : String, pre.status = 200 → pre.shaField = some h → h ≠ "" →
      (commit_rdf_to_github true parsed rdf_text pre put).1 =
        [.getContents (rstripSlash category ++ "/" ++ record_id ++ ".ttl"),
         .putContents (rstripSlash category ++ "/" ++ record_id ++ ".ttl")
           (mkPutPayload record_id category rdf_text (some h))] ∧
      (∀ r, (commit_rdf_to_github true parsed rdf_text pre put).2 = .ok r →
        r.action = "update")) ∧
    (pre.status = 404 →
      (commit_rdf_to_github true parsed rdf_text pre put).1 =
        [.getContents (rstripSlash category ++ "/" ++ record_id ++ ".ttl"),
         .putContents (rstripSlash category ++ "/" ++ record_id ++ ".ttl")
           (mkPutPayload record_id category rdf_text none)] ∧
      (∀ r, (commit_rdf_to_github true parsed rdf_text pre put).2 = .ok r →
        r.action = "create")) ∧
    (pre.status ≠ 200 → pre.status ≠ 404 →
      commit_rdf_to_github true parsed rdf_text pre put =
        ([.getContents (rstripSlash category ++ "/" ++ record_id ++ ".ttl")],
         .error (.preflightFailed pre.text))) := by
  rw [commit_eq_after_extract parsed rdf_text record_id category u pre put hex]
  refine ⟨?_, ?_, ?_, ?_⟩
  · by_cases hpre : pre.status ≠ 200 ∧ pre.status ≠ 404
    · simp [commit_after_extract, hpre]
    · cases put with
      | httpError m => simp [commit_after_extract, hpre]
      | ok body =>
        rcases hcu : htmlUrlOf body "commit" with _ | cu <;>
          rcases hfu : htmlUrlOf body "content" with _ | fu <;>
            simp [commit_after_extract, hpre, hcu, hfu]
  · intro h h200 hsha hne
    have hne2 : (h != "") = true := by simpa using hne
    constructor
    · cases put with
      | httpError m => simp [commit_after_extract, h200, hsha, hne2]
      | ok body =>
        rcases hcu : htmlUrlOf body "commit" with _ | cu <;>
          rcases hfu : htmlUrlOf body "content" with _ | fu <;>
            simp [commit_after_extract, h200, hsha, hne2, hcu, hfu]
    · intro r hr
      cases put with
      | httpError m => simp [commit_after_extract, h200, hsha, hne2] at hr
      | ok body =>
        rcases hcu : htmlUrlOf body "commit" with _ | cu <;>
          rcases hfu : htmlUrlOf body "content" with _ | fu <;>
            simp [commit_after_extract, h200, hsha, hne2, hcu, hfu] at hr
        rw [← hr]
  · intro h404
    constructor
    · cases put with
      | httpError m => simp [commit_after_extract, h404]
      | ok body =>
        rcases hcu : htmlUrlOf body "commit" with _ | cu <;>
          rcases hfu : htmlUrlOf body "content" with _ | fu <;>
            simp [commit_after_extract, h404, hcu, hfu]
    · intro r hr
      cases put with
      | httpError m => simp [commit_after_extract, h404] at hr
      | ok body =>
        rcases hcu : htmlUrlOf body "commit" with _ | cu <;>
          rcases hfu : htmlUrlOf body "content" with _ | fu <;>
            simp [commit_after_extract, h404, hcu, hfu] at hr
        rw [← hr]
  · intro h200 h404
    simp [commit_after_extract, h200, h404]

/-- Witness for C3: committing against a store that reports the file present
with hash `abc` issues the preflight read and a write carrying `sha = abc`,
and returns action "update". -/
theorem claim_C3_commit_preflight_witness :
    (commit_rdf_to_github true
        (.ok [⟨.uri "http://e/cat/rec.ttl", dctermsIdentifier, .lit "z"⟩]) "content"
        ⟨200, some "abc", ""⟩
        (.ok (.obj [("commit", .obj [("html_url", .str "c")]),
          ("content", .obj [("html_url", .str "f")])]))).1 =
      [.getContents (rstripSlash "cat" ++ "/" ++ "rec" ++ ".ttl"),
       .putContents (rstripSlash "cat" ++ "/" ++ "rec" ++ ".ttl")
         (mkPutPayload "rec" "cat" "content" (some "abc"))] ∧
    (∀ r, (commit_rdf_to_github true
        (.ok [⟨.uri "http://e/cat/rec.ttl", dctermsIdentifier, .lit "z"⟩]) "content"
        ⟨200, some "abc", ""⟩
        (.ok (.obj [("commit", .obj [("html_url", .str "c")]),
          ("content", .obj [("html_url", .str "f")])]))).2 = .ok r →
      r.action = "update") :=
  (claim_C3_commit_preflight
    (.ok [⟨.uri "http://e/cat/rec.ttl", dctermsIdentifier, .lit "z"⟩]) "content"
    "rec" "cat" "http://e/cat/rec.ttl" ⟨200, some "abc", ""⟩
    (.ok (.obj [("commit", .obj [("html_url", .str "c")]),
      ("content", .obj [("html_url", .str "f")])]))
    (by rfl)).2.1 "abc" rfl rfl (by decide)

/-- Claim C10: when the preflight read succeeds (file reported existing) but
its body has no content-hash field, the commit does not fail: the write is
still issued, with no hash in its payload, and a successful result's action
is "create". -/
theorem claim_C10_missing_hash_creates (parsed : Except String (List Triple))
    (rdf_text record_id category u : String) (pre : PreResponse) (put : PutOutcome)
    (hex : extract_record_info parsed = .ok (record_id, category, u))
    (h200 : pre.status = 200) (hsha : pre.shaField = none) :
    (commit_rdf_to_github true parsed rdf_text pre put).1 =
      [.getContents (rstripSlash category ++ "/" ++ record_id ++ ".ttl"),
       .putContents (rstripSlash category ++ "/" ++ record_id ++ ".ttl")
         (mkPutPayload record_id category rdf_text none)] ∧
    (∀ t, (commit_rdf_to_github true parsed rdf_text pre put).2 ≠
      .error (.preflightFailed t)) ∧
    (∀ r, (commit_rdf_to_github true parsed rdf_text pre put).2 = .ok r →
      r.action = "create") := by
  rw [commit_eq_after_extract parsed rdf_text record_id category u pre put hex]
  refine ⟨?_, ?_, ?_⟩
  · cases put with
    | httpError m => simp [commit_after_extract, h200, hsha]
    | ok body =>
      rcases hcu : htmlUrlOf body "commit" with _ | cu <;>
        rcases hfu : htmlUrlOf body "content" with _ | fu <;>
          simp [commit_after_extract, h200, hsha, hcu, hfu]
  · intro t
    cases put with
    | httpError m => simp [commit_after_extract, h200, hsha]
    | ok body =>
      rcases hcu : htmlUrlOf body "commit" with _ | cu <;>
        rcases hfu : htmlUrlOf body "content" with _ | fu <;>
          simp [commit_after_extract, h200, hsha, hcu, hfu]
  · intro r hr
    cases put with
    | httpError m => simp [commit_after_extract, h200, hsha] at hr
    | ok body =>
      rcases hcu : htmlUrlOf body "commit" with _ | cu <;>
        rcases hfu : htmlUrlOf body "content" with _ | fu <;>
          simp [commit_after_extract, h200, hsha, hcu, hfu] at hr
      rw [← hr]

/-- Witness for C10: a store that reports the file present but returns no
hash field leads to a hashless write and action "create". -/
theorem claim_C10_missing_hash_creates_witness :
    (commit_rdf_to_github true
        (.ok [⟨.uri "http://e/cat/rec.ttl", dctermsIdentifier, .lit "z"⟩]) "content"
        ⟨200, none, ""⟩
        (.ok (.obj [("commit", .obj [("html_url", .str "c")]),
          ("content", .obj [("html_url", .str "f")])]))).1 =
      [.getContents (rstripSlash "cat" ++ "/" ++ "rec" ++ ".ttl"),
       .putContents (rstripSlash "cat" ++ "/" ++ "rec" ++ ".ttl")
         (mkPutPayload "rec" "cat" "content" none)] ∧
    (∀ t, (commit_rdf_to_github true
        (.ok [⟨.uri "http://e/cat/rec.ttl", dctermsIdentifier, .lit "z"⟩]) "content"
        ⟨200, none, ""⟩
        (.ok (.obj [("commit", .obj [("html_url", .str "c")]),
          ("content", .obj [("html_url", .str "f")])]))).2 ≠
      .error (.preflightFailed t)) ∧
    (∀ r, (commit_rdf_to_github true
        (.ok [⟨.uri "http://e/cat/rec.ttl", dctermsIdentifier, .lit "z"⟩]) "content"
        ⟨200, none, ""⟩
        (.ok (.obj [("commit", .obj [("html_url", .str "c")]),
          ("content", .obj [("html_url", .str "f")])]))).2 = .ok r →
      r.action = "create") :=
  claim_C10_missing_hash_creates
    (.ok [⟨.uri "http://e/cat/rec.ttl", dctermsIdentifier, .lit "z"⟩]) "content"
    "rec" "cat" "http://e/cat/rec.ttl" ⟨200, none, ""⟩
    (.ok (.obj [("commit", .obj [("html_url", .str "c")]),
      ("content", .obj [("html_url", .str "f")])]))
    (by rfl) rfl rfl

/-- Claim C6: in the submission flow the payload posted to the registry data
endpoint equals sanitize(resolve(input record)) — sanitization applied once,
after subject/domain resolution, before submission; in particular, for a
record whose subject_ids is ["http://x/1", "http://x/2"] where only the
second resolves (to internal ID 42), the posted payload binds subject_ids to
the single-element sequence [42]. -/
theorem claim_C6_resolve_then_sanitize (oS oD : JsonVal → QueryOutcome) (body : JsonVal)
    (ab : JsonVal) (data : DataOutcome) (hjwt : usableJwt (.ok ab) = true) :
    (submit_record oS oD body (.ok ab) data).1 =
      [RegEvent.authPost,
       RegEvent.dataPost (remove_empty (resolve_subject_domain_ids oS oD body))] ∧
    (fetch_internal_id "searchSubjects" (oS (.str "http://x/1")) = none →
     fetch_internal_id "searchSubjects" (oS (.str "http://x/2")) = some (.num 42) →
     (submit_record oS oD
         (.obj [("fairsharing_record", .obj
           [("subject_ids", .arr [.str "http://x/1", .str "http://x/2"])])])
         (.ok ab) data).1 =
       [RegEvent.authPost, RegEvent.dataPost (.obj [("fairsharing_record", .obj
         [("subject_ids", .arr [.num 42])])])]) := by
  constructor
  · exact submit_record_events_of_usable oS oD body ab data hjwt
  · intro h1 h2
    rw [submit_record_events_of_usable oS oD _ ab data hjwt]
    have hres : resolve_subject_domain_ids oS oD
        (.obj [("fairsharing_record", .obj
          [("subject_ids", .arr [.str "http://x/1", .str "http://x/2"])])]) =
        .obj [("fairsharing_record", .obj [("subject_ids", .arr [.num 42])])] := by
      simp [resolve_subject_domain_ids, getKey, setKey, resolveLoop, h1, h2]
    rw [hres]
    rfl

/-- Witness for C6 at a concrete oracle, auth response and data outcome. -/
theorem claim_C6_resolve_then_sanitize_witness :
    (submit_record
        (fun v => if v = .str "http://x/2" then
          .success (.obj [("data", .obj [("searchSubjects", .arr [.obj [("id", .num 42)]])])])
          else .httpError "down")
        (fun _v => .httpError "down")
        (.obj [("fairsharing_record", .obj
          [("subject_ids", .arr [.str "http://x/1", .str "http://x/2"])])])
        (.ok (.obj [("jwt", .str "token")])) (.ok 201 .null)).1 =
      [RegEvent.authPost, RegEvent.dataPost (.obj [("fairsharing_record", .obj
        [("subject_ids", .arr [.num 42])])])] :=
  (claim_C6_resolve_then_sanitize
    (fun v => if v = .str "http://x/2" then
      .success (.obj [("data", .obj [("searchSubjects", .arr [.obj [("id", .num 42)]])])])
      else .httpError "down")
    (fun _v => .httpError "down")
    (.obj [("fairsharing_record", .obj
      [("subject_ids", .arr [.str "http://x/1", .str "http://x/2"])])])
    (.obj [("jwt", .str "token")]) (.ok 201 .null) (by decide)).2 rfl rfl

/-- Claim C7: if the authentication response carries no usable jwt token or
the authentication HTTP call fails, the submission flow fails with an
authentication-stage error and the registry data endpoint is never
called. -/
theorem claim_C7_auth_failure_no_data_call (oS oD : JsonVal → QueryOutcome)
    (body : JsonVal) (auth : AuthOutcome) (data : DataOutcome)
    (h : usableJwt auth = false) :
    (∃ e, (submit_record oS oD body auth data).2 = .error e ∧ isAuthStageErr e = true) ∧
    ∀ p, RegEvent.dataPost p ∉ (submit_record oS oD body auth data).1 := by
  cases auth with
  | httpError m =>
    refine ⟨⟨.authHttpFailure m, by simp [submit_record], rfl⟩, ?_⟩
    intro p
    simp [submit_record]
  | ok ab =>
    cases ab with
    | obj akvs =>
      simp only [usableJwt] at h
      refine ⟨⟨.missingJwt, by simp [submit_record, h], rfl⟩, ?_⟩
      intro p
      simp [submit_record, h]
    | null =>
      refine ⟨⟨.authBadBody, by simp [submit_record], rfl⟩, ?_⟩
      intro p
      simp [submit_record]
    | boolean b =>
      refine ⟨⟨.authBadBody, by simp [submit_record], rfl⟩, ?_⟩
      intro p
      simp [submit_record]
    | num n =>
      refine ⟨⟨.authBadBody, by simp [submit_record], rfl⟩, ?_⟩
      intro p
      simp [submit_record]
    | str s =>
      refine ⟨⟨.authBadBody, by simp [submit_record], rfl⟩, ?_⟩
      intro p
      simp [submit_record]
    | arr xs =>
      refine ⟨⟨.authBadBody, by simp [submit_record], rfl⟩, ?_⟩
      intro p
      simp [submit_record]

/-- Witness for C7: an authentication response without a jwt field fails the
flow before the data endpoint is called. -/
theorem claim_C7_auth_failure_no_data_call_witness :
    (∃ e, (submit_record (fun _v => .httpError "down") (fun _v => .httpError "down")
        (.obj []) (.ok (.obj [("user", .str "u")])) (.ok 200 .null)).2 = .error e ∧
      isAuthStageErr e = true) ∧
    ∀ p, RegEvent.dataPost p ∉ (submit_record (fun _v => .httpError "down")
      (fun _v => .httpError "down") (.obj []) (.ok (.obj [("user", .str "u")]))
      (.ok 200 .null)).1 :=
  claim_C7_auth_failure_no_data_call (fun _v => .httpError "down")
    (fun _v => .httpError "down") (.obj []) (.ok (.obj [("user", .str "u")]))
    (.ok 200 .null) (by decide)

end ProxyService
